import Mathlib

set_option autoImplicit false

/-
Shallow embedding of pogosandbox/node-check-account (src/index.js and the
unnamed earlier revision src/unnamed/part_000).

JavaScript account records are mutable objects whose properties are created
on first assignment; we model them as ordered association lists from property
names to JavaScript values (undefined, string or boolean), with the
assignment semantics of JS objects: updating an existing key in place,
appending a fresh key at the end.
-/

namespace CheckAccount

/-- JsVal models the JavaScript values that flow through account records:
undefined, strings and booleans. -/
inductive JsVal where
  | undefined
  | str (s : String)
  | bool (b : Bool)
deriving DecidableEq, Repr

/-- JsObj models a JavaScript object as an ordered association list of
properties. -/
abbrev JsObj : Type := List (String × JsVal)

/-- getProp models JavaScript property read: the first binding of the key,
or undefined when the key is absent. -/
def getProp : JsObj → String → JsVal
  | [], _ => .undefined
  | (k1, v) :: rest, k => if k1 = k then v else getProp rest k

/-- setProp models JavaScript property assignment: update the existing
binding in place, or append a fresh binding at the end. -/
def setProp : JsObj → String → JsVal → JsObj
  | [], k, v => [(k, v)]
  | (k1, v1) :: rest, k, v =>
      if k1 = k then (k1, v) :: rest else (k1, v1) :: setProp rest k v

/-- fieldCount is the number of properties of the object
(JavaScript Object.keys length, given that keys are unique). -/
def fieldCount (o : JsObj) : Nat := o.length

/-- jsToString models JavaScript string interpolation of a value inside a
template literal. -/
def jsToString : JsVal → String
  | .undefined => "undefined"
  | .str s => s
  | .bool true => "true"
  | .bool false => "false"

theorem getProp_setProp_self (o : JsObj) (k : String) (v : JsVal) :
    getProp (setProp o k v) k = v := by
  induction o with
  | nil => simp [setProp, getProp]
  | cons hd tl ih =>
      obtain ⟨k1, v1⟩ := hd
      by_cases h : k1 = k <;> simp [setProp, getProp, h, ih]

theorem getProp_setProp_ne (o : JsObj) (k k0 : String) (v : JsVal)
    (hne : k ≠ k0) : getProp (setProp o k v) k0 = getProp o k0 := by
  induction o with
  | nil => simp [setProp, getProp, hne]
  | cons hd tl ih =>
      obtain ⟨k1, v1⟩ := hd
      by_cases h : k1 = k
      · subst h; simp [setProp, getProp, hne]
      · simp [setProp, getProp, h, ih]

theorem length_setProp (o : JsObj) (k : String) (v : JsVal) :
    (setProp o k v).length =
      if (o.map Prod.fst).contains k then o.length else o.length + 1 := by
  induction o with
  | nil => simp [setProp]
  | cons hd tl ih =>
      obtain ⟨k1, v1⟩ := hd
      by_cases h : k1 = k
      · subst h; simp [setProp]
      · have hbeq : (k == k1) = false := by simp [Ne.symm h]
        simp only [setProp, if_neg h, List.length_cons, ih, List.map_cons,
          List.contains_cons, hbeq, Bool.false_or]
        by_cases hc : (tl.map Prod.fst).contains k = true
        · rw [if_pos hc, if_pos hc]
        · rw [if_neg hc, if_neg hc]

/-! ### The CSV report writer, saveToFile (src/index.js lines 174-180)

The source builds the content string with a loop:
content starts as the header line, then for each account the template
line username,banned,warn,store,iap is appended. -/

/-- accountRow is the template literal of the loop body of saveToFile:
the interpolation of username, banned, warn, store and iap, comma
separated, newline terminated. -/
def accountRow (a : JsObj) : String :=
  jsToString (getProp a "username") ++ "," ++
  jsToString (getProp a "banned") ++ "," ++
  jsToString (getProp a "warn") ++ "," ++
  jsToString (getProp a "store") ++ "," ++
  jsToString (getProp a "iap") ++ "\n"

/-- saveToFile (src/index.js lines 174-180): the content written to the
report file. -/
def saveToFile (accounts : List JsObj) : String :=
  accounts.foldl (fun content account => content ++ accountRow account)
    "username,banned,warn,store,iap\n"

/-- accountRowV0 is the identical template literal of the loop body of
saveToFile in src/unnamed/part_000 (lines 163-169). -/
def accountRowV0 (a : JsObj) : String :=
  jsToString (getProp a "username") ++ "," ++
  jsToString (getProp a "banned") ++ "," ++
  jsToString (getProp a "warn") ++ "," ++
  jsToString (getProp a "store") ++ "," ++
  jsToString (getProp a "iap") ++ "\n"

/-- saveToFileV0 (src/unnamed/part_000 lines 163-169): the content written
to the report file by the earlier revision. -/
def saveToFileV0 (accounts : List JsObj) : String :=
  accounts.foldl (fun content account => content ++ accountRowV0 account)
    "username,banned,warn,store,iap\n"

/-- rowsOf is the concatenation, in list order, of one report row per
account. -/
def rowsOf : List JsObj → String
  | [] => ""
  | a :: rest => accountRow a ++ rowsOf rest

theorem foldl_append_rowsOf (l : List JsObj) (init : String) :
    l.foldl (fun content account => content ++ accountRow account) init =
      init ++ rowsOf l := by
  induction l generalizing init with
  | nil => simp [rowsOf]
  | cons a rest ih => simp [rowsOf, ih, String.append_assoc]

/-! ### The CSV reader of src/unnamed/part_000, loadAccount (lines 47-62)

The index.js revision delegates parsing to the external neat-csv library;
the part_000 revision parses by hand: split the content on line breaks,
split each line on the delimiter, and push one record per line. -/

/-- splitLinesAux walks the characters accumulating the current line in
reverse; a CRLF pair or a lone LF ends the line, any other character
(including a lone CR) belongs to it. -/
def splitLinesAux : List Char → List Char → List (List Char)
  | [], acc => [acc.reverse]
  | '\r' :: '\n' :: rest, acc => acc.reverse :: splitLinesAux rest []
  | '\n' :: rest, acc => acc.reverse :: splitLinesAux rest []
  | c :: rest, acc => splitLinesAux rest (c :: acc)

/-- splitLines models content.split on the regular expression matching an
optional carriage return followed by a newline: CRLF and LF both separate
lines, a lone CR does not. -/
def splitLines (content : String) : List String :=
  (splitLinesAux content.data []).map String.mk

/-- splitOnAuxJs splits on a separator substring, fuelled by the input
length so the recursion is structural. -/
def splitOnAuxJs (sep : List Char) : Nat → List Char → List Char → List (List Char)
  | _, [], acc => [acc.reverse]
  | 0, s, acc => [acc.reverse ++ s]
  | fuel + 1, c :: rest, acc =>
      if sep.isPrefixOf (c :: rest) then
        acc.reverse :: splitOnAuxJs sep fuel ((c :: rest).drop sep.length) []
      else
        splitOnAuxJs sep fuel rest (c :: acc)

/-- splitOnJs models the JavaScript String.split with a non-empty string
separator, as used on each line with the configured delimiter. -/
def splitOnJs (sep : String) (s : String) : List String :=
  (splitOnAuxJs sep.data s.data.length s.data []).map String.mk

/-- jsIndex models JavaScript array indexing, which yields undefined out of
range. -/
def jsIndex (l : List String) (i : Nat) : JsVal :=
  match l[i]? with
  | some s => .str s
  | none => .undefined

/-- mkRecord is the object literal pushed by loadAccount of
src/unnamed/part_000 for one split line: type, username and password are
the first three entries of the split. -/
def mkRecord (parts : List String) : JsObj :=
  [("type", jsIndex parts 0),
   ("username", jsIndex parts 1),
   ("password", jsIndex parts 2)]

/-- loadAccountV0 (src/unnamed/part_000 lines 47-62): the list of account
records built by the reading loop, one push per line of the input file. -/
def loadAccountV0 (content : String) (delimiter : String) : List JsObj :=
  (splitLines content).foldl
    (fun accounts line => accounts ++ [mkRecord (splitOnJs delimiter line)])
    []

theorem foldl_push_eq_append {α β : Type} (f : α → β) (l : List α)
    (init : List β) :
    l.foldl (fun acc x => acc ++ [f x]) init = init ++ l.map f := by
  induction l generalizing init with
  | nil => simp
  | cons x rest ih => simp [ih]

theorem loadAccountV0_eq_map (content delimiter : String) :
    loadAccountV0 content delimiter =
      (splitLines content).map (fun line => mkRecord (splitOnJs delimiter line)) := by
  simp [loadAccountV0, foldl_push_eq_append]

/-! ### The client model

The pogobuf client, the network and the remote service are external to the
repository; loginFlow and checkAccount only sequence calls on them. We
model one run of an account check by an environment that fixes the outcome
(a response, or a thrown error) of every awaited remote call, and we record
the sequence of batched calls the code issues as a trace. -/

/-- JsError models a thrown JavaScript error, of which the code only ever
reads the message. -/
structure JsError where
  message : String
deriving DecidableEq, Repr

/-- hasSubstr decides whether the pattern occurs as a contiguous substring
of the characters. -/
def hasSubstr (pattern : List Char) : List Char → Bool
  | [] => pattern.isEmpty
  | c :: rest => pattern.isPrefixOf (c :: rest) || hasSubstr pattern rest

/-- hasStatusCode3 models e.message.indexOf of the literal the code
matches on being nonnegative, that is the literal occurring as a substring
of the message. -/
def hasStatusCode3 (msg : String) : Bool :=
  hasSubstr "Status code 3".data msg.data

/-- RequestTypeGET_INVENTORY is the POGOProtos request-type tag the config
batch response is searched for to find the inventory response. -/
def RequestTypeGET_INVENTORY : Nat := 4

/-- RequestTypeDOWNLOAD_SETTINGS is the POGOProtos request-type tag the
config batch response is searched for to find the settings response. -/
def RequestTypeDOWNLOAD_SETTINGS : Nat := 5

/-- BatchResp models one response message of the download-config batch
call: its request-type tag, the player level that
pogobuf.Utils.splitInventory extracts from an inventory response, the
new_timestamp_ms of its inventory_delta, and the hash of a settings
response. -/
structure BatchResp where
  requestType : Nat
  playerLevel : Nat
  newTimestampMs : Nat
  hash : String
deriving DecidableEq, Repr

/-- LoginResult models the record literal loginFlow returns. -/
structure LoginResult where
  inventory : Nat
  settings : String
deriving DecidableEq, Repr

/-- LoginEnv fixes the outcome of each awaited call of loginFlow: init,
the empty batch call, the getPlayer batch call (whose response carries the
warn and banned values), the download-config batch call (whose response is
a list of messages), the player-profile batch call and the levelUpRewards
batch call. -/
structure LoginEnv where
  initRes : Except JsError Unit
  emptyRes : Except JsError Unit
  playerRes : Except JsError (JsVal × JsVal)
  configRes : Except JsError (List BatchResp)
  profileRes : Except JsError Unit
  levelUpRes : Except JsError Unit
deriving Repr

/-- Call is the trace alphabet of loginFlow: one entry per client call it
issues, carrying the argument values the code threads between batches. -/
inductive Call where
  | setPosition
  | init
  | emptyBatchCall
  | getPlayerBatch
  | downloadConfigBatch
  | playerProfileBatch (inventory : Nat) (settings : String)
  | levelUpRewardsBatch (level : Nat) (inventory : Nat) (settings : String)
deriving DecidableEq, Repr

/-- typeError models the TypeError thrown when a property of undefined is
read, which happens when a lodash find over the config batch response
comes back empty. -/
def typeError : JsError := ⟨"Cannot read property of undefined"⟩

/-- loginFlow (src/index.js lines 71-128), run against an environment:
returns the trace of client calls issued, the account object after the
run (the code mutates account.warn and account.banned in place when the
getPlayer response arrives), and either the returned record or the error
that propagated out. -/
def loginFlow (account : JsObj) (env : LoginEnv) :
    List Call × JsObj × Except JsError LoginResult :=
  match env.initRes with
  | .error e => ([.setPosition, .init], account, .error e)
  | .ok _ =>
  match env.emptyRes with
  | .error e => ([.setPosition, .init, .emptyBatchCall], account, .error e)
  | .ok _ =>
  match env.playerRes with
  | .error e =>
      ([.setPosition, .init, .emptyBatchCall, .getPlayerBatch],
       account, .error e)
  | .ok (w, b) =>
  let account1 := setProp (setProp account "warn" w) "banned" b
  match env.configRes with
  | .error e =>
      ([.setPosition, .init, .emptyBatchCall, .getPlayerBatch,
        .downloadConfigBatch], account1, .error e)
  | .ok resps =>
  match resps.find? (fun r => r.requestType == RequestTypeGET_INVENTORY) with
  | none =>
      ([.setPosition, .init, .emptyBatchCall, .getPlayerBatch,
        .downloadConfigBatch], account1, .error typeError)
  | some invResp =>
  let level := invResp.playerLevel
  let inventory := invResp.newTimestampMs
  match resps.find? (fun r => r.requestType == RequestTypeDOWNLOAD_SETTINGS) with
  | none =>
      ([.setPosition, .init, .emptyBatchCall, .getPlayerBatch,
        .downloadConfigBatch], account1, .error typeError)
  | some settingsResp =>
  let settings := settingsResp.hash
  match env.profileRes with
  | .error e =>
      ([.setPosition, .init, .emptyBatchCall, .getPlayerBatch,
        .downloadConfigBatch, .playerProfileBatch inventory settings],
       account1, .error e)
  | .ok _ =>
  match env.levelUpRes with
  | .error e =>
      ([.setPosition, .init, .emptyBatchCall, .getPlayerBatch,
        .downloadConfigBatch, .playerProfileBatch inventory settings,
        .levelUpRewardsBatch level inventory settings],
       account1, .error e)
  | .ok _ =>
      ([.setPosition, .init, .emptyBatchCall, .getPlayerBatch,
        .downloadConfigBatch, .playerProfileBatch inventory settings,
        .levelUpRewardsBatch level inventory settings],
       account1, .ok ⟨inventory, settings⟩)

/-- StoreItem models one item of the GET_STORE_ITEMS response; the code
only reads its is_iap flag. -/
structure StoreItem where
  is_iap : Bool
deriving DecidableEq, Repr

/-- StoreResp models the GET_STORE_ITEMS platform batch response; its
items property may be absent. -/
structure StoreResp where
  items : Option (List StoreItem)
deriving DecidableEq, Repr

/-- someIsIap models the lodash some over response.items with the is_iap
predicate; lodash some of an undefined collection is false. -/
def someIsIap : Option (List StoreItem) → Bool
  | none => false
  | some items => items.any (fun item => item.is_iap)

/-- CheckEnv fixes the outcomes of one checkAccount run: the login-phase
outcomes and the outcome of the GET_STORE_ITEMS platform batch call. -/
structure CheckEnv where
  login : LoginEnv
  storeRes : Except JsError StoreResp
deriving Repr

/-- storePhase is the second try block of checkAccount
(src/index.js lines 155-166): on success set store to true and iap to
whether some item has is_iap, on a thrown error set both to false. -/
def storePhase (account : JsObj) (res : Except JsError StoreResp) : JsObj :=
  match res with
  | .ok resp =>
      setProp (setProp account "store" (.bool true)) "iap"
        (.bool (someIsIap resp.items))
  | .error _ =>
      setProp (setProp account "store" (.bool false)) "iap" (.bool false)

/-- checkAccount (src/index.js lines 130-172): run loginFlow inside a try
whose catch marks the account banned exactly when the error message
contains the Status code 3 literal, then run the store phase. -/
def checkAccount (account : JsObj) (env : CheckEnv) : JsObj :=
  let r := loginFlow account env.login
  let account1 := r.2.1
  let account2 :=
    match r.2.2 with
    | .ok _ => account1
    | .error e =>
        if hasStatusCode3 e.message then setProp account1 "banned" (.bool true)
        else account1
  storePhase account2 env.storeRes

/-! ### Main (src/index.js lines 182-190) -/

/-- Ev is the event alphabet of one Main run: loading the configuration,
reading the input CSV, beginning and completing the check of the account
at an index, and writing a report file. -/
inductive Ev where
  | loadConfig
  | readCsv (file : String)
  | checkStart (i : Nat)
  | checkEnd (i : Nat)
  | writeFile (file : String)
deriving DecidableEq, Repr

/-- mainLoop is the for loop of Main: each account is checked to
completion (checkStart then checkEnd, with its checked record produced)
before the loop moves to the next account. -/
def mainLoop (accounts : List JsObj) (envs : Nat → CheckEnv) (i : Nat) :
    List Ev × List JsObj :=
  match accounts with
  | [] => ([], [])
  | a :: rest =>
      let checked := checkAccount a (envs i)
      let r := mainLoop rest envs (i + 1)
      (Ev.checkStart i :: Ev.checkEnd i :: r.1, checked :: r.2)

/-- Main (src/index.js lines 182-190), run against per-account
environments: load the configuration, read the input CSV, check every
account in order, then write the report to output.csv; the returned
string is the written report content. -/
def Main (input : String) (rows : List JsObj) (envs : Nat → CheckEnv) :
    List Ev × String :=
  let r := mainLoop rows envs 0
  (Ev.loadConfig :: Ev.readCsv input :: (r.1 ++ [Ev.writeFile "output.csv"]),
   saveToFile r.2)

/-! ### Helper lemmas about the phases -/

theorem loginFlow_account_eq (account : JsObj) (env : LoginEnv) :
    (loginFlow account env).2.1 = account ∨
    ∃ w b, env.playerRes = Except.ok (w, b) ∧
      (loginFlow account env).2.1 = setProp (setProp account "warn" w) "banned" b := by
  obtain ⟨i, em, p, c, pr, lu⟩ := env
  simp only [loginFlow]
  repeat' split
  all_goals first
    | (left; rfl)
    | (right; exact ⟨_, _, rfl, rfl⟩)

theorem loginFlow_frame (account : JsObj) (env : LoginEnv) (k : String)
    (hw : k ≠ "warn") (hb : k ≠ "banned") :
    getProp (loginFlow account env).2.1 k = getProp account k := by
  rcases loginFlow_account_eq account env with h | ⟨w, b, _, h⟩
  · rw [h]
  · rw [h, getProp_setProp_ne _ _ _ _ (Ne.symm hb),
      getProp_setProp_ne _ _ _ _ (Ne.symm hw)]

theorem storePhase_frame (account : JsObj) (res : Except JsError StoreResp)
    (k : String) (hs : k ≠ "store") (hi : k ≠ "iap") :
    getProp (storePhase account res) k = getProp account k := by
  cases res <;>
    simp only [storePhase] <;>
    rw [getProp_setProp_ne _ _ _ _ (Ne.symm hi),
      getProp_setProp_ne _ _ _ _ (Ne.symm hs)]

theorem storePhase_store (account : JsObj) (res : Except JsError StoreResp) :
    getProp (storePhase account res) "store" =
      .bool (match res with | .ok _ => true | .error _ => false) := by
  cases res <;>
    simp only [storePhase] <;>
    rw [getProp_setProp_ne _ _ _ _ (by decide), getProp_setProp_self]

theorem storePhase_iap (account : JsObj) (res : Except JsError StoreResp) :
    getProp (storePhase account res) "iap" =
      .bool (match res with | .ok resp => someIsIap resp.items | .error _ => false) := by
  cases res <;> simp only [storePhase] <;> rw [getProp_setProp_self]

theorem checkAccount_eq (account : JsObj) (env : CheckEnv) :
    checkAccount account env =
      storePhase
        (match (loginFlow account env.login).2.2 with
          | .ok _ => (loginFlow account env.login).2.1
          | .error e =>
              if hasStatusCode3 e.message then
                setProp (loginFlow account env.login).2.1 "banned" (.bool true)
              else (loginFlow account env.login).2.1)
        env.storeRes := rfl

theorem someIsIap_eq_true (items : Option (List StoreItem)) :
    someIsIap items = true ↔
      ∃ l, items = some l ∧ ∃ item ∈ l, item.is_iap = true := by
  cases items with
  | none => simp [someIsIap]
  | some l => simp [someIsIap, List.any_eq_true]

theorem keys_setProp (o : JsObj) (k : String) (v : JsVal) :
    (setProp o k v).map Prod.fst =
      if (o.map Prod.fst).contains k then o.map Prod.fst
      else o.map Prod.fst ++ [k] := by
  induction o with
  | nil => simp [setProp]
  | cons hd tl ih =>
      obtain ⟨k1, v1⟩ := hd
      by_cases h : k1 = k
      · subst h
        simp [setProp]
      · have hbeq : (k == k1) = false := by simp [Ne.symm h]
        simp only [setProp, if_neg h, List.map_cons, List.contains_cons,
          hbeq, Bool.false_or, ih]
        by_cases hc : (tl.map Prod.fst).contains k = true
        · rw [if_pos hc, if_pos hc]
        · rw [if_neg hc, if_neg hc, List.cons_append]

theorem mainLoop_trace (accounts : List JsObj) (envs : Nat → CheckEnv)
    (i : Nat) :
    (mainLoop accounts envs i).1 =
      ((List.range' i accounts.length).map
        (fun j => [Ev.checkStart j, Ev.checkEnd j])).flatten := by
  induction accounts generalizing i with
  | nil => simp [mainLoop]
  | cons a rest ih => simp [mainLoop, List.range'_succ, ih]

theorem mainLoop_accounts (accounts : List JsObj) (envs : Nat → CheckEnv)
    (i : Nat) :
    (mainLoop accounts envs i).2 =
      (accounts.enumFrom i).map (fun p => checkAccount p.2 (envs p.1)) := by
  induction accounts generalizing i with
  | nil => simp [mainLoop]
  | cons a rest ih => simp [mainLoop, ih]

/-! ### Concrete sample data for witnesses and counterexamples -/

/-- sampleAccount is a freshly read record for a ptc account. -/
def sampleAccount : JsObj :=
  [("type", .str "ptc"), ("username", .str "alice"), ("password", .str "hunter2")]

/-- invResp0 is a sample inventory message of the config batch response. -/
def invResp0 : BatchResp := ⟨RequestTypeGET_INVENTORY, 30, 12345, ""⟩

/-- settingsResp0 is a sample settings message of the config batch
response. -/
def settingsResp0 : BatchResp := ⟨RequestTypeDOWNLOAD_SETTINGS, 0, 0, "somehash"⟩

/-- loginEnvOk is an environment in which every login call succeeds. -/
def loginEnvOk : LoginEnv :=
  ⟨.ok (), .ok (), .ok (.bool false, .bool false),
   .ok [invResp0, settingsResp0], .ok (), .ok ()⟩

/-- storeOk is a successful store response with one purchasable item. -/
def storeOk : Except JsError StoreResp := .ok ⟨some [⟨true⟩]⟩

/-- envOk is a fully successful check environment. -/
def envOk : CheckEnv := ⟨loginEnvOk, storeOk⟩

/-- envStatus3 is an environment whose init call throws an error carrying
the Status code 3 literal. -/
def envStatus3 : CheckEnv :=
  ⟨⟨.error ⟨"Login failed: Status code 3"⟩, .ok (), .ok (.undefined, .undefined),
    .ok [], .ok (), .ok ()⟩, storeOk⟩

/-- envLateErr is an environment in which the getPlayer batch succeeds but
the download-config batch throws an unrelated error. -/
def envLateErr : CheckEnv :=
  ⟨⟨.ok (), .ok (), .ok (.bool false, .bool false),
    .error ⟨"Bad request"⟩, .ok (), .ok ()⟩, storeOk⟩

/-- envEarlyErr is an environment in which init throws an unrelated error
before the getPlayer batch runs. -/
def envEarlyErr : CheckEnv :=
  ⟨⟨.error ⟨"Network down"⟩, .ok (), .ok (.undefined, .undefined),
    .ok [], .ok (), .ok ()⟩, storeOk⟩

/-! ### The claims -/

/-- C1: saveToFile writes the header line username,banned,warn,store,iap
followed, in input order, by exactly one row per account, each row the
comma-separated interpolation of that account's username, banned, warn,
store and iap fields in that order (accountRow), newline terminated. -/
theorem saveToFile_report_shape (accounts : List JsObj) :
    saveToFile accounts = "username,banned,warn,store,iap\n" ++ rowsOf accounts :=
  foldl_append_rowsOf accounts _

/-- C10: the saveToFile functions of src/index.js and src/unnamed/part_000
are extensionally equal: they produce the same report content on every
list of account records. -/
theorem saveToFile_versions_agree (accounts : List JsObj) :
    saveToFile accounts = saveToFileV0 accounts := by
  unfold saveToFile saveToFileV0
  congr 1

/-- C4: the CSV reader loadAccount of src/unnamed/part_000 produces one
record per input row, of the shape type, username, password, taken from
the first three delimiter-separated fields of that row. -/
theorem loadAccount_record_shape (content delimiter : String) :
    (loadAccountV0 content delimiter).length = (splitLines content).length ∧
    ∀ i (h : i < (splitLines content).length),
      (loadAccountV0 content delimiter)[i]? =
        some [("type",
                jsIndex (splitOnJs delimiter ((splitLines content).get ⟨i, h⟩)) 0),
              ("username",
                jsIndex (splitOnJs delimiter ((splitLines content).get ⟨i, h⟩)) 1),
              ("password",
                jsIndex (splitOnJs delimiter ((splitLines content).get ⟨i, h⟩)) 2)] := by
  rw [loadAccountV0_eq_map]
  constructor
  · simp
  · intro i h
    simp [List.getElem?_map, List.getElem?_eq_getElem h, mkRecord]

/-- Witness for C4 at a concrete one-line file. -/
theorem loadAccount_record_shape_witness :
    (loadAccountV0 "ptc,alice,hunter2" ",").length = 1 ∧
    (loadAccountV0 "ptc,alice,hunter2" ",")[0]? =
      some [("type", JsVal.str "ptc"), ("username", JsVal.str "alice"),
            ("password", JsVal.str "hunter2")] := by
  have h := loadAccount_record_shape "ptc,alice,hunter2" ","
  exact ⟨h.1.trans (by decide), (h.2 0 (by decide)).trans (by decide)⟩

/-- C2: under an environment in which every remote call succeeds and the
config batch response carries an inventory and a settings message,
loginFlow issues exactly the fixed call sequence set position, init, empty
batch call, getPlayer batch, download-config batch, player-profile batch
and levelUpRewards batch, sets account.warn and account.banned from the
getPlayer response, threads the extracted level, inventory timestamp and
settings hash into the later batches, and returns the record with
inventory and settings. -/
theorem loginFlow_fixed_sequence (account : JsObj) (env : LoginEnv)
    (w b : JsVal) (resps : List BatchResp) (invResp settingsResp : BatchResp)
    (hi : env.initRes = .ok ()) (he : env.emptyRes = .ok ())
    (hp : env.playerRes = .ok (w, b)) (hc : env.configRes = .ok resps)
    (hinv : resps.find? (fun r => r.requestType == RequestTypeGET_INVENTORY) =
      some invResp)
    (hset : resps.find? (fun r => r.requestType == RequestTypeDOWNLOAD_SETTINGS) =
      some settingsResp)
    (hpr : env.profileRes = .ok ()) (hl : env.levelUpRes = .ok ()) :
    loginFlow account env =
      ([Call.setPosition, Call.init, Call.emptyBatchCall, Call.getPlayerBatch,
        Call.downloadConfigBatch,
        Call.playerProfileBatch invResp.newTimestampMs settingsResp.hash,
        Call.levelUpRewardsBatch invResp.playerLevel invResp.newTimestampMs
          settingsResp.hash],
       setProp (setProp account "warn" w) "banned" b,
       Except.ok ⟨invResp.newTimestampMs, settingsResp.hash⟩) := by
  obtain ⟨i, em, p, c, pr, lu⟩ := env
  dsimp only at hi he hp hc hpr hl
  subst hi he hp hc hpr hl
  simp [loginFlow, hinv, hset]

/-- Witness for C2 at a concrete successful environment. -/
theorem loginFlow_fixed_sequence_witness :
    loginFlow sampleAccount loginEnvOk =
      ([Call.setPosition, Call.init, Call.emptyBatchCall, Call.getPlayerBatch,
        Call.downloadConfigBatch, Call.playerProfileBatch 12345 "somehash",
        Call.levelUpRewardsBatch 30 12345 "somehash"],
       setProp (setProp sampleAccount "warn" (.bool false)) "banned" (.bool false),
       Except.ok ⟨12345, "somehash"⟩) :=
  loginFlow_fixed_sequence sampleAccount loginEnvOk (.bool false) (.bool false)
    [invResp0, settingsResp0] invResp0 settingsResp0 rfl rfl rfl rfl
    (by decide) (by decide) rfl rfl

/-- checkAccount_frame_helper: checkAccount only ever writes the warn,
banned, store and iap properties, so every other property reads back
unchanged. -/
theorem checkAccount_frame_helper (account : JsObj) (env : CheckEnv)
    (k : String) (h1 : k ≠ "warn") (h2 : k ≠ "banned") (h3 : k ≠ "store")
    (h4 : k ≠ "iap") :
    getProp (checkAccount account env) k = getProp account k := by
  rw [checkAccount_eq]
  cases hres : (loginFlow account env.login).2.2 with
  | ok r =>
      dsimp only
      rw [storePhase_frame _ _ _ h3 h4, loginFlow_frame _ _ _ h1 h2]
  | error e =>
      dsimp only
      by_cases hst : hasStatusCode3 e.message = true
      · rw [if_pos hst, storePhase_frame _ _ _ h3 h4,
          getProp_setProp_ne _ _ _ _ (Ne.symm h2),
          loginFlow_frame _ _ _ h1 h2]
      · rw [if_neg hst, storePhase_frame _ _ _ h3 h4,
          loginFlow_frame _ _ _ h1 h2]

/-- C3: when loginFlow throws, checkAccount's only recovery is the string
match on the message: a message containing the Status code 3 literal marks
the account banned, any other message leaves the record exactly as
loginFlow left it, and in either case checking continues into the store
phase, which sets the store and iap flags. -/
theorem checkAccount_login_recovery (account : JsObj) (env : CheckEnv)
    (tr : List Call) (a1 : JsObj) (e : JsError)
    (h : loginFlow account env.login = (tr, a1, Except.error e)) :
    (hasStatusCode3 e.message = true →
      getProp (checkAccount account env) "banned" = .bool true) ∧
    (hasStatusCode3 e.message = false →
      ∀ k, k ≠ "store" → k ≠ "iap" →
        getProp (checkAccount account env) k = getProp a1 k) ∧
    (∃ b1 b2, getProp (checkAccount account env) "store" = JsVal.bool b1 ∧
      getProp (checkAccount account env) "iap" = JsVal.bool b2) := by
  have hc : checkAccount account env =
      storePhase
        (if hasStatusCode3 e.message then setProp a1 "banned" (.bool true)
         else a1)
        env.storeRes := by
    rw [checkAccount_eq, h]
  refine ⟨?_, ?_, ?_⟩
  · intro hs
    rw [hc, if_pos hs, storePhase_frame _ _ _ (by decide) (by decide),
      getProp_setProp_self]
  · intro hs k h3 h4
    rw [hc, if_neg (by simp [hs]), storePhase_frame _ _ _ h3 h4]
  · exact ⟨_, _, by rw [hc, storePhase_store], by rw [hc, storePhase_iap]⟩

/-- Witness for C3: an init error carrying the Status code 3 literal marks
the concrete account banned. -/
theorem checkAccount_login_recovery_witness :
    getProp (checkAccount sampleAccount envStatus3) "banned" = JsVal.bool true :=
  (checkAccount_login_recovery sampleAccount envStatus3
    [Call.setPosition, Call.init] sampleAccount
    ⟨"Login failed: Status code 3"⟩ rfl).1 (by decide)

/-- C5: Main runs load config, then the CSV read, then one complete check
per account in input order, each check finishing before the next starts,
and only then writes output.csv once, its content computed by saveToFile
from the checked records. -/
theorem Main_pipeline_order (input : String) (rows : List JsObj)
    (envs : Nat → CheckEnv) :
    (Main input rows envs).1 =
      Ev.loadConfig :: Ev.readCsv input ::
        (((List.range rows.length).map
          (fun j => [Ev.checkStart j, Ev.checkEnd j])).flatten
          ++ [Ev.writeFile "output.csv"]) ∧
    (Main input rows envs).2 =
      saveToFile (rows.enum.map (fun p => checkAccount p.2 (envs p.1))) := by
  constructor
  · simp [Main, mainLoop_trace, List.range_eq_range']
  · simp [Main, mainLoop_accounts, List.enum_eq_enumFrom]

/-- C6: after the store phase, a successful GET_STORE_ITEMS platform batch
call sets store to true and iap to true exactly when some item of the
response has is_iap; a thrown error sets both to false. -/
theorem checkAccount_store_phase (account : JsObj) (env : CheckEnv) :
    (∀ resp, env.storeRes = Except.ok resp →
      getProp (checkAccount account env) "store" = .bool true ∧
      getProp (checkAccount account env) "iap" = .bool (someIsIap resp.items) ∧
      (getProp (checkAccount account env) "iap" = .bool true ↔
        ∃ l, resp.items = some l ∧ ∃ item ∈ l, item.is_iap = true)) ∧
    (∀ e, env.storeRes = Except.error e →
      getProp (checkAccount account env) "store" = .bool false ∧
      getProp (checkAccount account env) "iap" = .bool false) := by
  constructor
  · intro resp hr
    rw [checkAccount_eq, hr]
    refine ⟨?_, ?_, ?_⟩
    · rw [storePhase_store]
    · rw [storePhase_iap]
    · rw [storePhase_iap]
      simp only [JsVal.bool.injEq]
      exact someIsIap_eq_true resp.items
  · intro e he
    rw [checkAccount_eq, he]
    exact ⟨by rw [storePhase_store], by rw [storePhase_iap]⟩

/-- Witness for C6: the concrete successful store response with one
purchasable item yields store true and iap true. -/
theorem checkAccount_store_phase_witness :
    getProp (checkAccount sampleAccount envOk) "store" = JsVal.bool true ∧
    getProp (checkAccount sampleAccount envOk) "iap" = JsVal.bool true := by
  have h := (checkAccount_store_phase sampleAccount envOk).1 ⟨some [⟨true⟩]⟩ rfl
  exact ⟨h.1, h.2.1.trans (by decide)⟩

/-- C9: checkAccount, the loginFlow it runs included, never modifies the
type, username or password properties of the record; every property other
than warn, banned, store and iap reads back unchanged. -/
theorem checkAccount_preserves_credentials (account : JsObj) (env : CheckEnv) :
    getProp (checkAccount account env) "type" = getProp account "type" ∧
    getProp (checkAccount account env) "username" = getProp account "username" ∧
    getProp (checkAccount account env) "password" = getProp account "password" ∧
    ∀ k, k ≠ "warn" → k ≠ "banned" → k ≠ "store" → k ≠ "iap" →
      getProp (checkAccount account env) k = getProp account k :=
  ⟨checkAccount_frame_helper account env "type" (by decide) (by decide)
      (by decide) (by decide),
   checkAccount_frame_helper account env "username" (by decide) (by decide)
      (by decide) (by decide),
   checkAccount_frame_helper account env "password" (by decide) (by decide)
      (by decide) (by decide),
   fun k h1 h2 h3 h4 => checkAccount_frame_helper account env k h1 h2 h3 h4⟩

/-- Witness for C9 at a concrete account, environment and property. -/
theorem checkAccount_preserves_credentials_witness :
    getProp (checkAccount sampleAccount envOk) "deviceId" =
      getProp sampleAccount "deviceId" :=
  (checkAccount_preserves_credentials sampleAccount envOk).2.2.2 "deviceId"
    (by decide) (by decide) (by decide) (by decide)

/-- C8 counterexample: when the getPlayer batch succeeds and a later batch
of loginFlow throws an error without the Status code 3 literal, warn and
banned were already assigned, so the written row carries false, not the
literal text undefined, in the banned and warn columns. -/
theorem login_error_row_counterexample :
    (loginFlow sampleAccount envLateErr.login).2.2 = Except.error ⟨"Bad request"⟩ ∧
    hasStatusCode3 "Bad request" = false ∧
    saveToFile [checkAccount sampleAccount envLateErr] =
      "username,banned,warn,store,iap\nalice,false,false,true,true\n" :=
  ⟨rfl, rfl, rfl⟩

/-- C8 amended: for every account whose loginFlow throws a non Status
code 3 error while warn and banned are still unset (that is, before the
getPlayer response was processed), the row saveToFile writes for it
carries the literal text undefined in the banned and warn columns. -/
theorem login_error_undefined_row (account : JsObj) (env : CheckEnv)
    (tr : List Call) (a1 : JsObj) (e : JsError)
    (h : loginFlow account env.login = (tr, a1, Except.error e))
    (hmsg : hasStatusCode3 e.message = false)
    (hw : getProp a1 "warn" = JsVal.undefined)
    (hb : getProp a1 "banned" = JsVal.undefined) :
    accountRow (checkAccount account env) =
      jsToString (getProp account "username") ++ "," ++ "undefined" ++ "," ++
        "undefined" ++ "," ++
        jsToString (getProp (checkAccount account env) "store") ++ "," ++
        jsToString (getProp (checkAccount account env) "iap") ++ "\n" := by
  have hc : checkAccount account env = storePhase a1 env.storeRes := by
    rw [checkAccount_eq, h]
    dsimp only
    rw [if_neg (by simp [hmsg])]
  have hu : getProp (checkAccount account env) "username" =
      getProp account "username" :=
    checkAccount_frame_helper account env "username" (by decide) (by decide)
      (by decide) (by decide)
  have hbn : getProp (checkAccount account env) "banned" = JsVal.undefined := by
    rw [hc, storePhase_frame _ _ _ (by decide) (by decide), hb]
  have hwn : getProp (checkAccount account env) "warn" = JsVal.undefined := by
    rw [hc, storePhase_frame _ _ _ (by decide) (by decide), hw]
  simp only [accountRow]
  rw [hu, hbn, hwn]
  rfl

/-- Witness for the amended C8 at a concrete early login error. -/
theorem login_error_undefined_row_witness :
    accountRow (checkAccount sampleAccount envEarlyErr) =
      jsToString (getProp sampleAccount "username") ++ "," ++ "undefined" ++
        "," ++ "undefined" ++ "," ++
        jsToString (getProp (checkAccount sampleAccount envEarlyErr) "store") ++
        "," ++
        jsToString (getProp (checkAccount sampleAccount envEarlyErr) "iap") ++
        "\n" :=
  login_error_undefined_row sampleAccount envEarlyErr
    [Call.setPosition, Call.init] sampleAccount ⟨"Network down"⟩ rfl
    (by decide) (by decide) (by decide)

/-! ### Field counting for C7 -/

theorem contains_append (l1 l2 : List String) (k : String) :
    (l1 ++ l2).contains k = (l1.contains k || l2.contains k) := by
  induction l1 with
  | nil => simp
  | cons a rest ih => simp [ih, Bool.or_assoc]

theorem fieldCount_setProp_fresh (a : JsObj) (k : String) (v : JsVal)
    (h : (a.map Prod.fst).contains k = false) :
    fieldCount (setProp a k v) = fieldCount a + 1 := by
  simp only [fieldCount]
  rw [length_setProp, if_neg (by rw [h]; exact Bool.false_ne_true)]

theorem keys_setProp_fresh (a : JsObj) (k : String) (v : JsVal)
    (h : (a.map Prod.fst).contains k = false) :
    (setProp a k v).map Prod.fst = a.map Prod.fst ++ [k] := by
  rw [keys_setProp, if_neg (by rw [h]; exact Bool.false_ne_true)]

theorem keys_setProp_existing (a : JsObj) (k : String) (v : JsVal)
    (h : (a.map Prod.fst).contains k = true) :
    (setProp a k v).map Prod.fst = a.map Prod.fst := by
  rw [keys_setProp, if_pos h]

theorem fieldCount_storePhase (a : JsObj) (res : Except JsError StoreResp)
    (h1 : (a.map Prod.fst).contains "store" = false)
    (h2 : (a.map Prod.fst).contains "iap" = false) :
    fieldCount (storePhase a res) = fieldCount a + 2 := by
  cases res with
  | ok resp =>
      simp only [storePhase]
      have hk : ((setProp a "store" (JsVal.bool true)).map Prod.fst).contains
          "iap" = false := by
        rw [keys_setProp_fresh _ _ _ h1, contains_append, h2]
        decide
      rw [fieldCount_setProp_fresh _ _ _ hk, fieldCount_setProp_fresh _ _ _ h1]
  | error e =>
      simp only [storePhase]
      have hk : ((setProp a "store" (JsVal.bool false)).map Prod.fst).contains
          "iap" = false := by
        rw [keys_setProp_fresh _ _ _ h1, contains_append, h2]
        decide
      rw [fieldCount_setProp_fresh _ _ _ hk, fieldCount_setProp_fresh _ _ _ h1]

theorem fieldCount_storePhase_bounds (a1 : JsObj)
    (res : Except JsError StoreResp) (ks : List String)
    (hk : a1.map Prod.fst = ks)
    (hs : ks.contains "store" = false)
    (hi2 : ks.contains "iap" = false)
    (h3 : 3 ≤ ks.length) (h5 : ks.length ≤ 5) :
    5 ≤ fieldCount (storePhase a1 res) ∧
      fieldCount (storePhase a1 res) ≤ 7 := by
  have hs2 : (a1.map Prod.fst).contains "store" = false := by rw [hk]; exact hs
  have hi3 : (a1.map Prod.fst).contains "iap" = false := by rw [hk]; exact hi2
  have hfc : fieldCount a1 = ks.length := by
    have := congrArg List.length hk
    simpa [fieldCount] using this
  rw [fieldCount_storePhase _ _ hs2 hi3, hfc]
  omega

theorem fieldCount_checkAccount_of_keys (account : JsObj) (env : CheckEnv)
    (hkeys : account.map Prod.fst = ["type", "username", "password"]) :
    5 ≤ fieldCount (checkAccount account env) ∧
      fieldCount (checkAccount account env) ≤ 7 := by
  have hka1 : (loginFlow account env.login).2.1.map Prod.fst =
        ["type", "username", "password"] ∨
      (loginFlow account env.login).2.1.map Prod.fst =
        ["type", "username", "password", "warn", "banned"] := by
    rcases loginFlow_account_eq account env.login with ha1 | ⟨w, b, _, ha1⟩
    · left; rw [ha1, hkeys]
    · right
      have h1 : (account.map Prod.fst).contains "warn" = false := by
        rw [hkeys]; decide
      have h2 : ((setProp account "warn" w).map Prod.fst).contains "banned" =
          false := by
        rw [keys_setProp_fresh _ _ _ h1, hkeys]; decide
      rw [ha1, keys_setProp_fresh _ _ _ h2, keys_setProp_fresh _ _ _ h1, hkeys]
      decide
  rw [checkAccount_eq]
  cases hres : (loginFlow account env.login).2.2 with
  | ok r =>
      dsimp only
      rcases hka1 with hk | hk
      · exact fieldCount_storePhase_bounds _ _ _ hk (by decide) (by decide)
          (by decide) (by decide)
      · exact fieldCount_storePhase_bounds _ _ _ hk (by decide) (by decide)
          (by decide) (by decide)
  | error e =>
      dsimp only
      by_cases hst : hasStatusCode3 e.message = true
      · rw [if_pos hst]
        rcases hka1 with hk | hk
        · have hb : ((loginFlow account env.login).2.1.map Prod.fst).contains
              "banned" = false := by rw [hk]; decide
          have hk2 : (setProp (loginFlow account env.login).2.1 "banned"
              (JsVal.bool true)).map Prod.fst =
              ["type", "username", "password", "banned"] := by
            rw [keys_setProp_fresh _ _ _ hb, hk]
            decide
          exact fieldCount_storePhase_bounds _ _ _ hk2 (by decide) (by decide)
            (by decide) (by decide)
        · have hb : ((loginFlow account env.login).2.1.map Prod.fst).contains
              "banned" = true := by rw [hk]; decide
          have hk2 : (setProp (loginFlow account env.login).2.1 "banned"
              (JsVal.bool true)).map Prod.fst =
              ["type", "username", "password", "warn", "banned"] := by
            rw [keys_setProp_existing _ _ _ hb, hk]
          exact fieldCount_storePhase_bounds _ _ _ hk2 (by decide) (by decide)
            (by decide) (by decide)
      · rw [if_neg hst]
        rcases hka1 with hk | hk
        · exact fieldCount_storePhase_bounds _ _ _ hk (by decide) (by decide)
            (by decide) (by decide)
        · exact fieldCount_storePhase_bounds _ _ _ hk (by decide) (by decide)
            (by decide) (by decide)

/-- C7 counterexample: a record freshly read by loadAccount carries three
fields, fewer than the five the claim asserts as a lower bound. -/
theorem fieldCount_at_read_counterexample :
    (loadAccountV0 "ptc,alice,hunter2" ",").map fieldCount = [3] ∧ 3 < 5 := by
  decide

/-- C7 amended: every record read by loadAccount carries exactly three
string fields (type, username, password), and after checkAccount it
carries between five and seven string or boolean fields (the credentials
plus store and iap, plus warn and banned when they were set). -/
theorem fieldCount_read_check_bounds (content delimiter : String) (i : Nat)
    (rec : JsObj) (h : (loadAccountV0 content delimiter)[i]? = some rec) :
    fieldCount rec = 3 ∧
    ∀ env, 5 ≤ fieldCount (checkAccount rec env) ∧
      fieldCount (checkAccount rec env) ≤ 7 := by
  have hksrec : rec.map Prod.fst = ["type", "username", "password"] := by
    rw [loadAccountV0_eq_map, List.getElem?_map] at h
    cases hline : (splitLines content)[i]? with
    | none => rw [hline] at h; simp at h
    | some line =>
        rw [hline] at h
        simp only [Option.map_some', Option.some.injEq] at h
        rw [← h]
        rfl
  constructor
  · have := congrArg List.length hksrec
    simpa [fieldCount] using this
  · intro env
    exact fieldCount_checkAccount_of_keys rec env hksrec

/-- Witness for the amended C7 at a concrete read record and check
environment. -/
theorem fieldCount_read_check_bounds_witness :
    fieldCount sampleAccount = 3 ∧
    (5 ≤ fieldCount (checkAccount sampleAccount envOk) ∧
      fieldCount (checkAccount sampleAccount envOk) ≤ 7) := by
  have h := fieldCount_read_check_bounds "ptc,alice,hunter2" "," 0
    sampleAccount (by decide)
  exact ⟨h.1, h.2 envOk⟩

end CheckAccount
